import Mathlib

/-!
Shallow embedding of the RatChallenge matching + risk-analytics engine
(src/api/services/data_loader.py, src/backend/services/matcher.py,
src/api/services/analytics.py) and proofs about it.

Modelling conventions:
* pandas DataFrames are lists of records; a frame additionally records which
  column groups are present (`hasOrderCols`, `hasInspCols`), because several
  analytics functions raise `KeyError` when a column is absent.  Fallible
  functions return `Except String _`, `.error` standing for a raised exception.
* Currency amounts are rationals; `round2` models rounding to 2 decimals at
  the output boundary.  Float division by zero is modelled by `PFloat`
  (`nan` for 0/0, `inf`/`ninf` for x/0), matching numpy semantics.
* Python `\s` and `str.strip()` are modelled over the six ASCII whitespace
  characters; regex `$` is modelled as end-of-input (Python's `$` also
  matches before a final newline; no claim settled here depends on that).
* Order rows carry only the fields the analytics touch (order_id,
  restaurant_name, cost_of_the_order); the remaining CSV columns are carried
  through unchanged by every modelled operation and are elided.
-/

/-- Is `needle` a leading block of `hay`? -/
def leadMatch : List Char → List Char → Bool
  | [], _ => true
  | _ :: _, [] => false
  | a :: as, b :: bs => a = b && leadMatch as bs

/-- Python `s.startswith(pre)`. -/
def strStarts (s pre : String) : Bool := leadMatch pre.toList s.toList

/-- Python `str.upper()` (ASCII fragment), as a character-list map. -/
def strUpper (s : String) : String := String.mk (s.toList.map Char.toUpper)

/-- Python `str.lower()` (ASCII fragment), as a character-list map. -/
def strLower (s : String) : String := String.mk (s.toList.map Char.toLower)

/-- Python whitespace (`str.strip()` / regex `\s`), ASCII fragment. -/
def pyWs (c : Char) : Bool :=
  c = ' ' || c = '\t' || c = '\n' || c = '\r' || c = '\x0b' || c = '\x0c'

/-- Strip characters satisfying `p` from both ends (Python `str.strip(chars)`). -/
def stripList (p : Char → Bool) (l : List Char) : List Char :=
  (((l.dropWhile p).reverse).dropWhile p).reverse

/-- Python `s.strip()`. -/
def pyStrip (s : String) : String := String.mk (stripList pyWs s.toList)

/-- Python `s.strip('"')`. -/
def pyStripQuote (s : String) : String :=
  String.mk (stripList (fun c => c = '"') s.toList)

/-- One atom of the (end-anchored) suffix patterns of
`DataLoader.NAME_SUFFIXES`: a single character of a class, or a starred
class (`\s*`, `\d*`, `.*`). -/
inductive RAtom where
  | one (p : Char → Bool)
  | many (p : Char → Bool)

/-- All suffixes of `cs` reachable by consuming zero or more leading
characters satisfying `p` (the ways a starred class can advance). -/
def pDrops (p : Char → Bool) : List Char → List (List Char)
  | [] => [[]]
  | c :: t => (c :: t) :: (if p c then pDrops p t else [])

/-- Does the atom sequence match the whole character list (i.e. match ending
exactly at `$`)?  Backtracking/greediness is irrelevant for an anchored
`re.sub` deletion, so existential semantics is used. -/
def matchToEnd : List RAtom → List Char → Bool
  | [], cs => cs.isEmpty
  | .one p :: ps, cs =>
      match cs with
      | [] => false
      | c :: t => p c && matchToEnd ps t
  | .many p :: ps, cs => (pDrops p cs).any (fun t => matchToEnd ps t)

/-- A pattern is a disjunction of atom sequences (optional regex groups are
compiled to branch alternatives). -/
def matchHere (branches : List (List RAtom)) (cs : List Char) : Bool :=
  branches.any (fun b => matchToEnd b cs)

/-- Leftmost start index from which the pattern matches to the end of input
(`re.search` for an `$`-anchored pattern). -/
def findStart (branches : List (List RAtom)) : List Char → Option Nat
  | [] => if matchHere branches [] then some 0 else none
  | c :: t =>
      if matchHere branches (c :: t) then some 0
      else (findStart branches t).map (· + 1)

/-- `re.sub(pattern, "", s)` for an `$`-anchored pattern: delete from the
leftmost match start to the end of the string. -/
def subAnchored (branches : List (List RAtom)) (s : String) : String :=
  match findStart branches s.toList with
  | none => s
  | some i => String.mk (s.toList.take i)

/-- Case-insensitive literal (re.IGNORECASE). -/
def litCI (w : String) : List RAtom :=
  w.toList.map (fun c => RAtom.one (fun x => x.toLower = c.toLower))

def wsStar : RAtom := RAtom.many pyWs

/-- `\s+` -/
def wsMany : List RAtom := [RAtom.one pyWs, RAtom.many pyWs]

/-- `\d+` -/
def digMany : List RAtom := [RAtom.one Char.isDigit, RAtom.many Char.isDigit]

/-- `(\.\d+)?` as branch alternatives. -/
def fracOpt : List (List RAtom) := [[], litCI "." ++ digMany]

/-- `(Fee)?` as branch alternatives. -/
def feeOpt : List (List RAtom) := [[], litCI "Fee"]

/-- `.` (any char except newline). -/
def dotAny : RAtom := RAtom.many (fun c => c ≠ '\n')

/-- `\s*-\s*WORD\s*$` -/
def dashRule (w : String) : List (List RAtom) :=
  [[wsStar] ++ litCI "-" ++ [wsStar] ++ litCI w ++ [wsStar]]

/-- `\s*-\s*\$\d+(\.\d+)?\s+off.*$` -/
def offRule : List (List RAtom) :=
  fracOpt.map (fun fr =>
    [wsStar] ++ litCI "-" ++ [wsStar] ++ litCI "$" ++ digMany ++ fr ++
      wsMany ++ litCI "off" ++ [dotAny])

/-- `\s*\$\d+(\.\d+)?\s+Delivery\s*(Fee)?\s*$` -/
def deliveryRule : List (List RAtom) :=
  fracOpt.flatMap (fun fr =>
    feeOpt.map (fun fe =>
      [wsStar] ++ litCI "$" ++ digMany ++ fr ++ wsMany ++
        litCI "Delivery" ++ [wsStar] ++ fe ++ [wsStar]))

/-- `\s*\(archived\)\s*$` -/
def archivedRule : List (List RAtom) :=
  [[wsStar] ++ litCI "(archived)" ++ [wsStar]]

/-- `\s+WORD\s*$` -/
def bareRule (w : String) : List (List RAtom) :=
  [wsMany ++ litCI w ++ [wsStar]]

/-- `DataLoader.NAME_SUFFIXES`, in declared order. -/
def NAME_SUFFIXES : List (List (List RAtom)) :=
  [ dashRule "CLOSED"
  , offRule
  , deliveryRule
  , archivedRule
  , dashRule "Midtown"
  , dashRule "Downtown"
  , dashRule "UES"
  , dashRule "UWS"
  , dashRule "Brooklyn"
  , dashRule "Manhattan"
  , bareRule "Broadway"
  , bareRule "Hudson"
  ]

/-- `DataLoader.normalize_restaurant_name`.  `none` models a null/non-string
input; `if not name` additionally sends `""` to `""`. -/
def normalize_restaurant_name (x : Option String) : String :=
  match x with
  | none => ""
  | some name =>
      if name = "" then ""
      else
        let n := pyStrip (pyStripQuote (pyStrip name))
        let n := NAME_SUFFIXES.foldl (fun acc r => subAnchored r acc) n
        pyStrip n


/-! ## RestaurantMatcher (src/backend/services/matcher.py) -/

/-- One value of the `restaurant_mapping.json` object (`info.get("camis")` /
`info.get("boro")` may be absent, hence `Option`). -/
structure MapInfo where
  camis : Option String
  boro : Option String
deriving DecidableEq

/-- The state of the reference mapping file as seen by `_load_mapping`:
absent, present but unreadable/invalid JSON, or valid JSON content. -/
inductive MappingFile where
  | missing
  | unreadable
  | valid (entries : List (String × MapInfo))
deriving DecidableEq

/-- The matcher's lookup state: `_mapping` (exact names) and
`_normalized_mapping` (lower-cased normalized name ↦ (original_name, info)). -/
structure Mapping where
  exact : List (String × MapInfo)
  normalized : List (String × (String × MapInfo))
deriving DecidableEq

/-- Python dict lookup over an insertion-ordered association list
(later assignments win). -/
def dictGet {β : Type} (l : List (String × β)) (k : String) : Option β :=
  l.foldl (fun acc p => if p.1 = k then some p.2 else acc) none

def emptyMapping : Mapping := ⟨[], []⟩

/-- `RestaurantMatcher._load_mapping` (and the construction around it): a
missing file returns early with the empty mapping; an existing but
unreadable/invalid file raises out of `open`/`json.load`; valid content
drops keys starting with `"_"` and builds the normalized lookup. -/
def load_mapping : MappingFile → Except String Mapping
  | .missing => .ok emptyMapping
  | .unreadable => .error "OSError or JSONDecodeError while reading mapping"
  | .valid entries =>
      let kept := entries.filter (fun p => !(strStarts p.1 "_"))
      .ok { exact := kept
          , normalized :=
              kept.map (fun p =>
                (strLower (normalize_restaurant_name (some p.1)), (p.1, p.2))) }

/-- `RestaurantMatcher.get_camis`: exact lookup first (returning
`info.get("camis")` even when it is null), then normalized lookup. -/
def get_camis (m : Mapping) (restaurant_name : String) : Option String :=
  match dictGet m.exact restaurant_name with
  | some info => info.camis
  | none =>
      match dictGet m.normalized
              (strLower (normalize_restaurant_name (some restaurant_name))) with
      | some e => e.2.camis
      | none => none

/-- `RestaurantMatcher.get_restaurant_info`: same resolution order; the exact
branch returns the queried name with the info, the normalized branch returns
the stored `(original_name, info)` record. -/
def get_restaurant_info (m : Mapping) (restaurant_name : String) :
    Option (String × MapInfo) :=
  match dictGet m.exact restaurant_name with
  | some info => some (restaurant_name, info)
  | none =>
      dictGet m.normalized
        (strLower (normalize_restaurant_name (some restaurant_name)))

/-! ## Data model and the join (matcher.py lines 94-168) -/

/-- An NYC inspection row, with the columns `_get_latest_inspections` keeps.
All payload fields are nullable; `camis` is a non-null string (leading zeros
preserved).  Dates are pre-parsed timestamps (`Option Int`, `none` = NaT). -/
structure Inspection where
  camis : String
  dba : Option String
  boro : Option String
  grade : Option String
  grade_date : Option Int
  score : Option Int
  inspection_date : Option Int
  action : Option String
  violation_code : Option String
  violation_description : Option String
  critical_flag : Option String
  inspection_type : Option String
deriving DecidableEq

/-- An order row (the columns the analytics touch). -/
structure Order where
  order_id : Nat
  restaurant_name : String
  cost_of_the_order : ℚ
deriving DecidableEq

/-- A row of the merged frame: order columns, the resolved `camis`, and the
attached latest-inspection columns (`none` = all inspection fields NaN). -/
structure EnrichedOrder where
  order_id : Nat
  restaurant_name : String
  cost_of_the_order : ℚ
  camis : Option String
  insp : Option Inspection
deriving DecidableEq

/-- The result of `match_orders_to_inspections`, tracking which column groups
the DataFrame has: `pd.DataFrame()` has neither, `orders_with_camis` has only
the order columns, the merged frame has both. -/
structure MergedFrame where
  rows : List EnrichedOrder
  hasOrderCols : Bool
  hasInspCols : Bool
deriving DecidableEq

def mkEnriched (o : Order) (c : Option String) (i : Option Inspection) :
    EnrichedOrder :=
  ⟨o.order_id, o.restaurant_name, o.cost_of_the_order, c, i⟩

/-- `a` goes before `b` in a descending sort on `inspection_date`
(`sort_values("inspection_date", ascending=False)`, NaT last). -/
def dateBefore (a b : Inspection) : Bool :=
  match a.inspection_date, b.inspection_date with
  | some x, some y => y ≤ x
  | some _, none => true
  | none, some _ => false
  | none, none => true

def insertOrd {α : Type} (le : α → α → Bool) (x : α) : List α → List α
  | [] => [x]
  | y :: t => if le x y then x :: y :: t else y :: insertOrd le x t

def sortDescByDate (l : List Inspection) : List Inspection :=
  l.foldr (insertOrd dateBefore) []

/-- Distinct elements in first-occurrence order (the group keys of a
pandas `groupby`; key order is irrelevant to the downstream merge). -/
def dedupFirst {α : Type} [DecidableEq α] : List α → List α
  | [] => []
  | a :: t => a :: (dedupFirst t).filter (fun x => x ≠ a)

/-- `groupby("camis").first()` for one group: per column, the first non-NA
value in group order. -/
def combineGroup (c : String) (grp : List Inspection) : Inspection :=
  { camis := c
  , dba := grp.findSome? (·.dba)
  , boro := grp.findSome? (·.boro)
  , grade := grp.findSome? (·.grade)
  , grade_date := grp.findSome? (·.grade_date)
  , score := grp.findSome? (·.score)
  , inspection_date := grp.findSome? (·.inspection_date)
  , action := grp.findSome? (·.action)
  , violation_code := grp.findSome? (·.violation_code)
  , violation_description := grp.findSome? (·.violation_description)
  , critical_flag := grp.findSome? (·.critical_flag)
  , inspection_type := grp.findSome? (·.inspection_type) }

/-- `RestaurantMatcher._get_latest_inspections`: sort by inspection date
descending, then one combined row per CAMIS. -/
def get_latest_inspections (insp : List Inspection) : List Inspection :=
  if insp.isEmpty then []
  else
    let sorted := sortDescByDate insp
    (dedupFirst (sorted.map (·.camis))).map
      (fun c => combineGroup c (sorted.filter (fun i => i.camis = c)))

/-- One order's contribution to a pandas left merge on `camis`: a null key
matches nothing (the right side has no null keys); otherwise every matching
right row produces an output row, or a single null-padded row if none match. -/
def leftMergeRow (latest : List Inspection) (o : Order) (c : Option String) :
    List EnrichedOrder :=
  match c with
  | none => [mkEnriched o none none]
  | some cam =>
      let ms := latest.filter (fun i => i.camis = cam)
      if ms.isEmpty then [mkEnriched o (some cam) none]
      else ms.map (fun i => mkEnriched o (some cam) (some i))

/-- `RestaurantMatcher.match_orders_to_inspections`: empty orders give the
empty DataFrame (no columns); empty inspections give `orders_with_camis`
(no inspection columns); otherwise a left merge with the latest-inspection
reduction. -/
def match_orders_to_inspections (m : Mapping) (orders : List Order)
    (insp : List Inspection) : MergedFrame :=
  if orders.isEmpty then ⟨[], false, false⟩
  else
    let withCamis := orders.map (fun o => (o, get_camis m o.restaurant_name))
    if insp.isEmpty then
      ⟨withCamis.map (fun p => mkEnriched p.1 p.2 none), true, false⟩
    else
      let latest := get_latest_inspections insp
      ⟨withCamis.flatMap (fun p => leftMergeRow latest p.1 p.2), true, true⟩

/-! ## AnalyticsService (src/api/services/analytics.py) -/

/-- Substring occurrence (Python `in` / non-regex part of `str.contains`). -/
def hasSub (needle : List Char) : List Char → Bool
  | [] => needle.isEmpty
  | c :: t => leadMatch needle (c :: t) || hasSub needle t

/-- Case-sensitive substring test on strings (Python `pat in s`). -/
def hasSubStr (hay pat : String) : Bool := hasSub pat.toList hay.toList

/-- `series.str.contains("K1|K2|...", case=False, na=False)` on one cell:
case-insensitive substring match of any keyword, `False` on NaN. -/
def containsAnyCI (v : Option String) (kws : List String) : Bool :=
  match v with
  | none => false
  | some s => kws.any (fun k => hasSubStr (strUpper s) (strUpper k))

def RISK_GRADES : List String := ["C", "P", "N", "Z"]
def RODENT_KEYWORDS : List String := ["RODENT", "RAT", "MICE", "MOUSE", "VERMIN"]
def CLOSURE_KEYWORDS : List String := ["CLOSED", "RE-CLOSED", "RECLOSED"]
def GRADES : List String := ["A", "B", "C", "Z", "P", "N"]

/-- Rounding to 2 decimal places at the output boundary
(Python `round(x, 2)` / pandas `.round(2)`, idealized over ℚ). -/
def round2 (q : ℚ) : ℚ := (round (100 * q) : ℚ) / 100

/-- A float-valued percentage: numpy division by zero gives `inf`/`-inf`,
and `0/0` gives `nan`, without raising. -/
inductive PFloat where
  | nan
  | inf
  | ninf
  | val (q : ℚ)
deriving DecidableEq

/-- `revenue / total * 100` with numpy float-division semantics. -/
def divPct (rev total : ℚ) : PFloat :=
  if total = 0 then
    if rev = 0 then .nan else if 0 < rev then .inf else .ninf
  else .val (rev / total * 100)

def round2P : PFloat → PFloat
  | .val q => .val (round2 q)
  | x => x

def sumCosts (rows : List EnrichedOrder) : ℚ :=
  (rows.map (·.cost_of_the_order)).sum

/-- `float(self.orders_df["cost_of_the_order"].sum())`. -/
def totalRevenue (orders : List Order) : ℚ :=
  (orders.map (·.cost_of_the_order)).sum

/-- The `grade` cell of a merged row (NaN when unmatched or when the
attached inspection has no grade). -/
def rowGrade (r : EnrichedOrder) : Option String := r.insp.bind (·.grade)

/-- `merged["grade"].isin(["A","B","C","Z","P","N"])` on one row. -/
def isGraded (r : EnrichedOrder) : Bool :=
  match rowGrade r with
  | some g => GRADES.contains g
  | none => false

/-- The rows of one grade bucket. -/
def bucketRows (rows : List EnrichedOrder) (g : String) : List EnrichedOrder :=
  rows.filter (fun r => rowGrade r = some g)

/-- Revenue of one grade bucket (the groupby sum of `get_revenue_by_grade`
for a grade in the graded set). -/
def bucketRev (rows : List EnrichedOrder) (g : String) : ℚ :=
  sumCosts (bucketRows rows g)

/-- `merged[merged["camis"].isna()]`. -/
def unmatchedRows (rows : List EnrichedOrder) : List EnrichedOrder :=
  rows.filter (fun r => r.camis.isNone)

/-- `merged[(merged["camis"].notna()) & (~merged["grade"].isin(...))]`. -/
def matchedNoGradeRows (rows : List EnrichedOrder) : List EnrichedOrder :=
  rows.filter (fun r => r.camis.isSome && !(isGraded r))

/-- The "unmatched" revenue of `get_revenue_by_grade`: unresolved rows plus
matched-but-ungraded rows. -/
def unmatchedRev (rows : List EnrichedOrder) : ℚ :=
  sumCosts (unmatchedRows rows) + sumCosts (matchedNoGradeRows rows)

structure GradeRow where
  grade : String
  revenue : ℚ
  order_count : Nat
  percentage : PFloat
deriving DecidableEq

structure GradeResult where
  total_revenue : ℚ
  grades : List GradeRow
  unmatched_revenue : ℚ
  unmatched_order_count : Nat
deriving DecidableEq

/-- `AnalyticsService.get_revenue_by_grade`.  `merged["grade"]` raises
`KeyError` when the merged frame has no inspection columns. -/
def get_revenue_by_grade_core (orders : List Order) (f : MergedFrame) :
    Except String GradeResult :=
  if !f.hasInspCols then .error "KeyError: grade"
  else
    let total := totalRevenue orders
    let graded := f.rows.filter isGraded
    let keys := dedupFirst (graded.filterMap rowGrade)
    let grades := keys.map (fun g =>
      let grp := graded.filter (fun r => rowGrade r = some g)
      { grade := g
      , revenue := round2 (sumCosts grp)
      , order_count := grp.length
      , percentage := round2P (divPct (sumCosts grp) total) : GradeRow })
    let unm := unmatchedRows f.rows
    let mng := matchedNoGradeRows f.rows
    .ok { total_revenue := round2 total
        , grades := grades
        , unmatched_revenue := round2 (sumCosts unm + sumCosts mng)
        , unmatched_order_count := unm.length + mng.length }

/-- RAR predicate 1: `merged["action"].str.contains(CLOSED|RE-CLOSED|RECLOSED,
case=False, na=False)`. -/
def closedPred (r : EnrichedOrder) : Bool :=
  containsAnyCI (r.insp.bind (·.action)) CLOSURE_KEYWORDS

/-- RAR predicate 2: `merged["grade"] == "C"`. -/
def gradeCPred (r : EnrichedOrder) : Bool := rowGrade r = some "C"

/-- RAR predicate 3: `merged["grade"].isin(["P", "N", "Z"])`. -/
def pendingPred (r : EnrichedOrder) : Bool :=
  match rowGrade r with
  | some g => ["P", "N", "Z"].contains g
  | none => false

/-- RAR predicate 4: `merged["critical_flag"].str.upper() == "CRITICAL"`. -/
def criticalPred (r : EnrichedOrder) : Bool :=
  match r.insp.bind (·.critical_flag) with
  | some s => strUpper s = "CRITICAL"
  | none => false

/-- Satisfies at least one of the four RAR predicates. -/
def atRiskPred (r : EnrichedOrder) : Bool :=
  closedPred r || gradeCPred r || pendingPred r || criticalPred r

/-- How many of the four RAR predicates a row satisfies. -/
def numPreds (r : EnrichedOrder) : Nat :=
  (if closedPred r then 1 else 0) + (if gradeCPred r then 1 else 0) +
    (if pendingPred r then 1 else 0) + (if criticalPred r then 1 else 0)

/-- The `at_risk_orders` set of order ids (updated by all four categories;
a set, so de-duplicated). -/
def atRiskIds (rows : List EnrichedOrder) : List Nat :=
  dedupFirst
    (((rows.filter closedPred).map (·.order_id)) ++
     ((rows.filter gradeCPred).map (·.order_id)) ++
     ((rows.filter pendingPred).map (·.order_id)) ++
     ((rows.filter criticalPred).map (·.order_id)))

/-- `merged[merged["order_id"].isin(at_risk_orders)]`. -/
def rarUnionRows (rows : List EnrichedOrder) : List EnrichedOrder :=
  rows.filter (fun r => (atRiskIds rows).contains r.order_id)

/-- The de-duplicated union total `total_rar` (before output rounding). -/
def rarUnionTotal (rows : List EnrichedOrder) : ℚ :=
  sumCosts (rarUnionRows rows)

/-- The sum of the four per-category revenue sub-totals (before rounding). -/
def rarCatSum (rows : List EnrichedOrder) : ℚ :=
  sumCosts (rows.filter closedPred) + sumCosts (rows.filter gradeCPred) +
    sumCosts (rows.filter pendingPred) + sumCosts (rows.filter criticalPred)

structure RarResult where
  total_revenue_at_risk : ℚ
  order_count : Nat
  closed_revenue : ℚ
  grade_c_revenue : ℚ
  grade_pending_revenue : ℚ
  critical_violation_revenue : ℚ
  closed_count : Nat
  grade_c_count : Nat
  grade_pending_count : Nat
  critical_violation_count : Nat
deriving DecidableEq

/-- `AnalyticsService.get_revenue_at_risk`.  The closed and critical blocks
are guarded by column-presence checks, but `merged["grade"] == "C"` is not,
so a frame without inspection columns raises `KeyError`. -/
def get_revenue_at_risk_core (f : MergedFrame) : Except String RarResult :=
  if !f.hasInspCols then .error "KeyError: grade"
  else
    .ok { total_revenue_at_risk := round2 (rarUnionTotal f.rows)
        , order_count := (atRiskIds f.rows).length
        , closed_revenue := round2 (sumCosts (f.rows.filter closedPred))
        , grade_c_revenue := round2 (sumCosts (f.rows.filter gradeCPred))
        , grade_pending_revenue := round2 (sumCosts (f.rows.filter pendingPred))
        , critical_violation_revenue :=
            round2 (sumCosts (f.rows.filter criticalPred))
        , closed_count := (f.rows.filter closedPred).length
        , grade_c_count := (f.rows.filter gradeCPred).length
        , grade_pending_count := (f.rows.filter pendingPred).length
        , critical_violation_count := (f.rows.filter criticalPred).length }

/-- `AnalyticsService._find_rodent_violations`. -/
def filterRodent (insp : List Inspection) : List Inspection :=
  if insp.isEmpty then []
  else insp.filter (fun i => containsAnyCI i.violation_description RODENT_KEYWORDS)

/-- `max` aggregation over a column, skipping NA (`none` when all NA). -/
def maxOptInt (l : List Int) : Option Int :=
  l.foldl (fun acc x =>
    match acc with
    | none => some x
    | some m => some (max m x)) none

/-- The `rodent_details` aggregation for one CAMIS:
`violation_description: "first"` (first non-NA), `inspection_date: "max"`. -/
def rodentDetailFor (rodent : List Inspection) (c : String) :
    Option String × Option Int :=
  let grp := rodent.filter (fun i => i.camis = c)
  (grp.findSome? (·.violation_description),
   maxOptInt (grp.filterMap (·.inspection_date)))

structure RodentEntry where
  order_id : Nat
  restaurant_name : String
  cost : ℚ
  violation_description : Option String
  inspection_date : Option Int
  camis : Option String
deriving DecidableEq

structure RodentResult where
  total_rodent_revenue : ℚ
  order_count : Nat
  unique_restaurants : Nat
  orders : List RodentEntry
deriving DecidableEq

def zeroRodent : RodentResult := ⟨0, 0, 0, []⟩

deriving instance DecidableEq for Except

/-- `set(self.rodent_violations["camis"].unique())`. -/
def rodentCamisOf (rodent : List Inspection) : List String :=
  dedupFirst (rodent.map (·.camis))

/-- `merged[merged["camis"].isin(rodent_camis)]`. -/
def rodentSel (rodent : List Inspection) (f : MergedFrame) :
    List EnrichedOrder :=
  f.rows.filter (fun r =>
    match r.camis with
    | some c => (rodentCamisOf rodent).contains c
    | none => false)

/-- `AnalyticsService.get_rodent_orders` given the precomputed
`rodent_violations` frame and the merged frame.  `merged["camis"]` raises
when the frame has no columns (empty orders).  The `_rodent`-suffixed
columns exist only when the merged frame already had inspection columns;
otherwise `row.get(..., default)` yields the defaults. -/
def get_rodent_orders_core (rodent : List Inspection) (f : MergedFrame) :
    Except String RodentResult :=
  if rodent.isEmpty then .ok zeroRodent
  else if !f.hasOrderCols then .error "KeyError: camis"
  else
    let sel := rodentSel rodent f
    if sel.isEmpty then .ok zeroRodent
    else
      let withDetails := sel.map (fun r =>
        (r, match r.camis with
            | some c => rodentDetailFor rodent c
            | none => (none, none)))
      let total := ((withDetails.map (fun p => p.1.cost_of_the_order)).sum)
      let entries := (withDetails.take 100).map (fun p =>
        { order_id := p.1.order_id
        , restaurant_name := p.1.restaurant_name
        , cost := p.1.cost_of_the_order
        , violation_description := if f.hasInspCols then p.2.1 else none
        , inspection_date := if f.hasInspCols then p.2.2 else none
        , camis := p.1.camis : RodentEntry })
      .ok { total_rodent_revenue := round2 total
          , order_count := withDetails.length
          , unique_restaurants :=
              (dedupFirst (withDetails.map (fun p => p.1.restaurant_name))).length
          , orders := entries }

/-- pandas `Series.mode()` of a list of strings, ties resolved by the sorted
order of `mode()` (`.iloc[0]` = least); `none` on an empty list. -/
def modeStr (l : List String) : Option String :=
  match dedupFirst l with
  | [] => none
  | c :: cs =>
      let cnt := fun s => (l.filter (fun x => x = s)).length
      some ((c :: cs).foldl (fun acc s =>
        if cnt s > cnt acc || (cnt s = cnt acc && s < acc) then s else acc) c)

/-- The ordered violation-category classification of `get_borough_breakdown`
(rodent, then temperature, then sanitation, then pest; first match wins).
`str(NaN).upper() = "NAN"`, which matches no keyword. -/
def vcatOf (r : EnrichedOrder) : Option Nat :=
  let desc := strUpper (match r.insp.bind (·.violation_description) with
               | some d => d
               | none => "nan")
  if RODENT_KEYWORDS.any (fun k => hasSubStr desc k) then some 0
  else if hasSubStr desc "FOOD" &&
      (hasSubStr desc "TEMPERATURE" || hasSubStr desc "COLD" ||
        hasSubStr desc "HOT") then some 1
  else if hasSubStr desc "SANIT" || hasSubStr desc "CLEAN" then some 2
  else if hasSubStr desc "PEST" || hasSubStr desc "INSECT" ||
      hasSubStr desc "FLY" || hasSubStr desc "ROACH" then some 3
  else none

/-- Revenue of one violation category; the dict key is present only when at
least one row fell into the category. -/
def catRevenue (rows : List EnrichedOrder) (k : Nat) : Option ℚ :=
  let sel := rows.filter (fun r => vcatOf r = some k)
  if sel.isEmpty then none else some (round2 (sumCosts sel))

structure BoroRow where
  borough : String
  revenue : ℚ
  order_count : Nat
  percentage : PFloat
  top_violation_category : Option String
deriving DecidableEq

structure VCats where
  rodent : Option ℚ
  temperature : Option ℚ
  sanitation : Option ℚ
  pest : Option ℚ
deriving DecidableEq

structure BoroResult where
  total_revenue : ℚ
  boroughs : List BoroRow
  violation_categories : VCats
deriving DecidableEq

/-- `AnalyticsService.get_borough_breakdown`.  When the `boro` column is
absent or all-NaN, the frame is re-enriched from the mapping
(`RestaurantMatcher.enrich_orders_with_boro`), which needs the
`restaurant_name` column. -/
def get_borough_breakdown_core (orders : List Order) (m : Mapping)
    (f : MergedFrame) : Except String BoroResult :=
  if !f.hasOrderCols then .error "KeyError: restaurant_name"
  else
    let total := totalRevenue orders
    let inspBoro : EnrichedOrder → Option String := fun r => r.insp.bind (·.boro)
    let useEnrich := !f.hasInspCols || f.rows.all (fun r => (inspBoro r).isNone)
    let boroOf : EnrichedOrder → Option String := fun r =>
      if useEnrich then
        (get_restaurant_info m r.restaurant_name).bind (fun e => e.2.boro)
      else inspBoro r
    let keys := dedupFirst (f.rows.filterMap boroOf)
    let boroughs := keys.map (fun b =>
      let grp := f.rows.filter (fun r => boroOf r = some b)
      { borough := b
      , revenue := round2 (sumCosts grp)
      , order_count := grp.length
      , percentage := round2P (divPct (sumCosts grp) total)
      , top_violation_category :=
          if f.hasInspCols then
            modeStr (grp.filterMap (fun r => r.insp.bind (·.violation_description)))
          else none : BoroRow })
    .ok { total_revenue := round2 total
        , boroughs := boroughs
        , violation_categories :=
            if f.hasInspCols then
              ⟨catRevenue f.rows 0, catRevenue f.rows 1,
               catRevenue f.rows 2, catRevenue f.rows 3⟩
            else ⟨none, none, none, none⟩ }

/-- A watchlist risk flag (the human-readable flag strings, as tagged
values). -/
inductive RiskFlag where
  | critical (n : Nat)
  | rodent (n : Nat)
  | closure
  | badGrade (g : String)
deriving DecidableEq

/-- `critical_flag.str.upper() == "CRITICAL"` on a raw inspection row. -/
def inspCriticalPred (i : Inspection) : Bool :=
  match i.critical_flag with
  | some s => strUpper s = "CRITICAL"
  | none => false

def inspRodentPred (i : Inspection) : Bool :=
  containsAnyCI i.violation_description RODENT_KEYWORDS

def inspClosurePred (i : Inspection) : Bool :=
  containsAnyCI i.action CLOSURE_KEYWORDS

/-- Descending order on `grade_date`, NaT last
(`sort_values("grade_date", ascending=False)`). -/
def gradeDateBefore (a b : Inspection) : Bool :=
  match a.grade_date, b.grade_date with
  | some x, some y => y ≤ x
  | some _, none => true
  | none, some _ => false
  | none, none => true

/-- `sorted_by_grade_date_desc["grade"].iloc[0]` (may be NaN). -/
def latestGradeOf (ri : List Inspection) : Option String :=
  ((ri.foldr (insertOrd gradeDateBefore) []).head?).bind (·.grade)

/-- `get_risk_flags(camis)` inside `get_watchlist`: flags, critical count,
rodent count, computed by re-scanning the raw inspection collection. -/
def riskFlagsFor (insp : List Inspection) (c : String) :
    List RiskFlag × Nat × Nat :=
  let ri := insp.filter (fun i => i.camis = c)
  if ri.isEmpty then ([], 0, 0)
  else
    let crit := (ri.filter inspCriticalPred).length
    let rod := (ri.filter inspRodentPred).length
    let flags :=
      (if crit > 0 then [RiskFlag.critical crit] else []) ++
      (if rod > 0 then [RiskFlag.rodent rod] else []) ++
      (if ri.any inspClosurePred then [RiskFlag.closure] else []) ++
      (match latestGradeOf ri with
       | some g => if RISK_GRADES.contains g then [RiskFlag.badGrade g] else []
       | none => [])
    (flags, crit, rod)

structure WatchStat where
  restaurant_name : String
  camis : String
  revenue : ℚ
  order_count : Nat
  latest_grade : Option String
  last_inspection_date : Option Int
  risk_flags : List RiskFlag
  critical_violations : Nat
  rodent_violations : Nat
deriving DecidableEq

structure WatchEntry where
  rank : Nat
  restaurant_name : String
  camis : String
  revenue : ℚ
  order_count : Nat
  latest_grade : Option String
  critical_violations : Nat
  rodent_violations : Nat
  last_inspection_date : Option Int
  risk_flags : List RiskFlag
deriving DecidableEq

structure WatchResult where
  restaurants : List WatchEntry
  total_watchlist_revenue : ℚ
deriving DecidableEq

/-- Descending order on revenue (`sort_values("revenue", ascending=False)`). -/
def revBefore (a b : WatchStat) : Bool := b.revenue ≤ a.revenue

/-- `AnalyticsService.get_watchlist`: per-(name, camis) aggregation
(null-camis groups dropped by groupby), per-camis risk flags against the raw
inspection collection, filter to flagged, sort by revenue, take `top_n`.
The groupby aggregation of `grade` / `inspection_date` raises when the
merged frame lacks those columns. -/
def get_watchlist_core (top_n : Nat) (insp : List Inspection)
    (f : MergedFrame) : Except String WatchResult :=
  if !(f.hasOrderCols && f.hasInspCols) then .error "KeyError: grade"
  else
    let keys := dedupFirst
      (f.rows.filterMap (fun r => r.camis.map (fun c => (r.restaurant_name, c))))
    let stats := keys.map (fun k =>
      let grp := f.rows.filter
        (fun r => r.restaurant_name = k.1 && r.camis = some k.2)
      let fl := riskFlagsFor insp k.2
      { restaurant_name := k.1
      , camis := k.2
      , revenue := sumCosts grp
      , order_count := grp.length
      , latest_grade := grp.findSome? rowGrade
      , last_inspection_date :=
          maxOptInt (grp.filterMap (fun r => r.insp.bind (·.inspection_date)))
      , risk_flags := fl.1
      , critical_violations := fl.2.1
      , rodent_violations := fl.2.2 : WatchStat })
    let at_risk := stats.filter (fun s => s.risk_flags.length > 0)
    let ranked := (at_risk.foldr (insertOrd revBefore) []).take top_n
    let entries := ranked.enum.map (fun p =>
      { rank := p.1 + 1
      , restaurant_name := p.2.restaurant_name
      , camis := p.2.camis
      , revenue := round2 p.2.revenue
      , order_count := p.2.order_count
      , latest_grade := p.2.latest_grade
      , critical_violations := p.2.critical_violations
      , rodent_violations := p.2.rodent_violations
      , last_inspection_date := p.2.last_inspection_date
      , risk_flags := p.2.risk_flags : WatchEntry })
    .ok { restaurants := entries
        , total_watchlist_revenue := round2 ((entries.map (·.revenue)).sum) }

/-! ## The service object and its cached state -/

/-- `AnalyticsService.__init__` state: the two input frames, the matcher's
mapping, and the three lazily-computed caches. -/
structure AnalyticsState where
  orders : List Order
  inspections : List Inspection
  mapping : Mapping
  mergedCache : Option MergedFrame
  latestGradesCache : Option (List Inspection)
  rodentCache : Option (List Inspection)
deriving DecidableEq

/-- `AnalyticsService._compute_latest_grades`: filter to graded rows, sort
by `grade_date` descending, one combined row per CAMIS. -/
def compute_latest_grades (insp : List Inspection) : List Inspection :=
  if insp.isEmpty then []
  else
    let graded := insp.filter (fun i =>
      match i.grade with
      | some g => GRADES.contains g
      | none => false)
    if graded.isEmpty then []
    else
      let sorted := graded.foldr (insertOrd gradeDateBefore) []
      (dedupFirst (sorted.map (·.camis))).map
        (fun c => combineGroup c (sorted.filter (fun i => i.camis = c)))

/-- The `merged_df` property: compute on first access, then cache. -/
def mergedDf (s : AnalyticsState) : MergedFrame × AnalyticsState :=
  match s.mergedCache with
  | some f => (f, s)
  | none =>
      let f := match_orders_to_inspections s.mapping s.orders s.inspections
      (f, { s with mergedCache := some f })

/-- The `latest_grades` property. -/
def latestGrades (s : AnalyticsState) : List Inspection × AnalyticsState :=
  match s.latestGradesCache with
  | some v => (v, s)
  | none =>
      let v := compute_latest_grades s.inspections
      (v, { s with latestGradesCache := some v })

/-- The `rodent_violations` property. -/
def rodentViolations (s : AnalyticsState) : List Inspection × AnalyticsState :=
  match s.rodentCache with
  | some v => (v, s)
  | none =>
      let v := filterRodent s.inspections
      (v, { s with rodentCache := some v })

/-- `AnalyticsService.get_rodent_orders` on the service state. -/
def get_rodent_ordersS (s : AnalyticsState) :
    Except String RodentResult × AnalyticsState :=
  let p := rodentViolations s
  if p.1.isEmpty then (.ok zeroRodent, p.2)
  else
    let q := mergedDf p.2
    (get_rodent_orders_core p.1 q.1, q.2)

/-- `AnalyticsService.get_revenue_by_grade` on the service state. -/
def get_revenue_by_gradeS (s : AnalyticsState) :
    Except String GradeResult × AnalyticsState :=
  let q := mergedDf s
  (get_revenue_by_grade_core s.orders q.1, q.2)

/-- `AnalyticsService.get_revenue_at_risk` on the service state. -/
def get_revenue_at_riskS (s : AnalyticsState) :
    Except String RarResult × AnalyticsState :=
  let q := mergedDf s
  (get_revenue_at_risk_core q.1, q.2)

/-- `AnalyticsService.get_borough_breakdown` on the service state. -/
def get_borough_breakdownS (s : AnalyticsState) :
    Except String BoroResult × AnalyticsState :=
  let q := mergedDf s
  (get_borough_breakdown_core s.orders s.mapping q.1, q.2)

/-- `AnalyticsService.get_watchlist` on the service state. -/
def get_watchlistS (top_n : Nat) (s : AnalyticsState) :
    Except String WatchResult × AnalyticsState :=
  let q := mergedDf s
  (get_watchlist_core top_n s.inspections q.1, q.2)

structure Summary where
  total_orders : Nat
  total_revenue : ℚ
  matched_orders : Nat
  matched_revenue : ℚ
  rodent_revenue : ℚ
  rodent_order_count : Nat
  rodent_restaurant_count : Nat
  revenue_at_risk : ℚ
  risk_order_count : Nat
  grade_breakdown : List (String × ℚ)
  borough_breakdown : List (String × ℚ)
  top_watchlist : List WatchEntry
deriving DecidableEq

/-- `AnalyticsService.get_summary`: basic totals, then the five analytics in
order, propagating any raised exception. -/
def get_summaryS (s : AnalyticsState) :
    Except String Summary × AnalyticsState :=
  let q := mergedDf s
  if !q.1.hasOrderCols then (.error "KeyError: camis", q.2)
  else
    let matched := q.1.rows.filter (fun r => r.camis.isSome)
    let rod := get_rodent_ordersS q.2
    match rod.1 with
    | .error e => (.error e, rod.2)
    | .ok rodentR =>
      let rar := get_revenue_at_riskS rod.2
      match rar.1 with
      | .error e => (.error e, rar.2)
      | .ok rarR =>
        let gr := get_revenue_by_gradeS rar.2
        match gr.1 with
        | .error e => (.error e, gr.2)
        | .ok grR =>
          let br := get_borough_breakdownS gr.2
          match br.1 with
          | .error e => (.error e, br.2)
          | .ok brR =>
            let wl := get_watchlistS 10 br.2
            match wl.1 with
            | .error e => (.error e, wl.2)
            | .ok wlR =>
              (.ok { total_orders := s.orders.length
                   , total_revenue := round2 (totalRevenue s.orders)
                   , matched_orders := matched.length
                   , matched_revenue := round2 (sumCosts matched)
                   , rodent_revenue := rodentR.total_rodent_revenue
                   , rodent_order_count := rodentR.order_count
                   , rodent_restaurant_count := rodentR.unique_restaurants
                   , revenue_at_risk := rarR.total_revenue_at_risk
                   , risk_order_count := rarR.order_count
                   , grade_breakdown := grR.grades.map (fun g => (g.grade, g.revenue))
                   , borough_breakdown := brR.boroughs.map (fun b => (b.borough, b.revenue))
                   , top_watchlist := wlR.restaurants }, wl.2)

/-! ## Concrete inputs used by the claim theorems -/

/-- An inspection row with every payload field null except those given. -/
def blankInsp (c : String) : Inspection :=
  { camis := c, dba := none, boro := none, grade := none, grade_date := none
  , score := none, inspection_date := none, action := none
  , violation_code := none, violation_description := none
  , critical_flag := none, inspection_type := none }

/-- Five orders (C1's example input). -/
def ord5 : List Order :=
  [⟨1, "O1", 10⟩, ⟨2, "O2", 20⟩, ⟨3, "O3", 30⟩, ⟨4, "O4", 40⟩, ⟨5, "O5", 50⟩]

/-- Service state with five orders and an empty inspection collection. -/
def state1 : AnalyticsState := ⟨ord5, [], emptyMapping, none, none, none⟩

/-- A zero-cost enriched row with grade C and a critical flag: it satisfies
two RAR predicates at once. -/
def rowC2 : EnrichedOrder :=
  { order_id := 1, restaurant_name := "R", cost_of_the_order := 0
  , camis := some "X"
  , insp := some { blankInsp "X" with
                   grade := some "C",
                   critical_flag := some "CRITICAL" } }

/-- A positive-cost enriched row satisfying one RAR predicate. -/
def rowC2w : EnrichedOrder :=
  { order_id := 7, restaurant_name := "S", cost_of_the_order := 5
  , camis := some "Y"
  , insp := some { blankInsp "Y" with grade := some "C" } }

/-- Mapping resolving the name `"A"` to CAMIS `"X"`. -/
def map4 : Mapping :=
  ⟨[("A", ⟨some "X", none⟩)], [("a", ("A", ⟨some "X", none⟩))]⟩

/-- A graded inspection for CAMIS `"X"` in borough QUEENS. -/
def insp4 : Inspection :=
  { blankInsp "X" with
    grade := some "A", grade_date := some 0,
    inspection_date := some 0, boro := some "QUEENS" }

/-- One matched, graded order of cost 0 (total revenue 0). -/
def state4 : AnalyticsState :=
  ⟨[⟨1, "A", 0⟩], [insp4], map4, none, none, none⟩

/-- A rodent violation for CAMIS `"X"`. -/
def insp9 : Inspection :=
  { blankInsp "X" with
    violation_description := some "RODENT ACTIVITY",
    inspection_date := some 3 }

/-- A merged frame with 101 orders, all from the rodent-violation
restaurant. -/
def frame9 : MergedFrame :=
  ⟨(List.range 101).map (fun i =>
      { order_id := i, restaurant_name := "R", cost_of_the_order := 1
      , camis := some "X", insp := some insp9 }), true, true⟩

/-- The (successful) rodent analysis at `frame9`. -/
def r9 : RodentResult :=
  (get_rodent_orders_core [insp9] frame9).toOption.getD zeroRodent

/-! ## Lemmas about the join -/

theorem dedupFirst_nodup {α : Type} [DecidableEq α] (l : List α) :
    (dedupFirst l).Nodup := by
  induction l with
  | nil => simp [dedupFirst]
  | cons a t ih =>
      simp only [dedupFirst, List.nodup_cons]
      refine ⟨fun hmem => ?_, ih.filter _⟩
      have h2 := (List.mem_filter.mp hmem).2
      simp at h2

theorem mem_dedupFirst {α : Type} [DecidableEq α] {x : α} {l : List α} :
    x ∈ dedupFirst l ↔ x ∈ l := by
  induction l with
  | nil => simp [dedupFirst]
  | cons a t ih =>
      simp only [dedupFirst, List.mem_cons, List.mem_filter, ih,
        decide_eq_true_eq]
      by_cases hx : x = a <;> simp [hx]

theorem length_filter_le_one {α β : Type} [DecidableEq β] (f : α → β) (c : β)
    (l : List α) (h : (l.map f).Nodup) :
    (l.filter (fun x => f x = c)).length ≤ 1 := by
  induction l with
  | nil => simp
  | cons a t ih =>
      simp only [List.map_cons, List.nodup_cons] at h
      rw [List.filter_cons]
      by_cases hc : f a = c
      · have ht : t.filter (fun x => f x = c) = [] := by
          rw [List.filter_eq_nil_iff]
          intro x hx
          simp only [decide_eq_true_eq]
          intro hfx
          exact h.1 (List.mem_map.mpr ⟨x, hx, by rw [hfx, hc]⟩)
        simp [hc, ht]
      · simpa [hc] using ih h.2

theorem latest_camis_nodup (insp : List Inspection) :
    ((get_latest_inspections insp).map (·.camis)).Nodup := by
  unfold get_latest_inspections
  by_cases h : insp.isEmpty
  · simp [h]
  · simp only [h, Bool.false_eq_true, if_false, List.map_map]
    have : ((fun i : Inspection => i.camis) ∘
        fun c => combineGroup c ((sortDescByDate insp).filter
          (fun i => i.camis = c))) = fun c => c := by
      funext c
      simp [combineGroup]
    rw [this]
    simpa using dedupFirst_nodup _

theorem leftMergeRow_shape (latest : List Inspection) (o : Order)
    (c : Option String) (h : (latest.map (·.camis)).Nodup) :
    ∃ i : Option Inspection,
      leftMergeRow latest o c = [mkEnriched o c i] ∧ (c = none → i = none) := by
  cases c with
  | none => exact ⟨none, rfl, fun _ => rfl⟩
  | some cam =>
      by_cases he : (latest.filter (fun i => i.camis = cam)).isEmpty
      · exact ⟨none, by simp [leftMergeRow, he], by simp⟩
      · have hle := length_filter_le_one (fun i : Inspection => i.camis) cam latest h
        have hne : (latest.filter (fun i => i.camis = cam)).length ≠ 0 := by
          intro h0
          exact he (by simpa [List.isEmpty_iff, List.length_eq_zero] using h0)
        have h1 : (latest.filter (fun i => i.camis = cam)).length = 1 :=
          Nat.le_antisymm hle (Nat.one_le_iff_ne_zero.mpr hne)
        obtain ⟨i, hi⟩ := List.length_eq_one.mp h1
        exact ⟨some i, by simp [leftMergeRow, he, hi], by simp⟩

theorem bind_rows_length (latest : List Inspection)
    (h : (latest.map (·.camis)).Nodup) (ps : List (Order × Option String)) :
    (ps.flatMap (fun p => leftMergeRow latest p.1 p.2)).length = ps.length := by
  induction ps with
  | nil => rfl
  | cons p t ih =>
      obtain ⟨i, hi, -⟩ := leftMergeRow_shape latest p.1 p.2 h
      simp [List.flatMap_cons, hi, ih]

theorem bind_rows_costs (latest : List Inspection)
    (h : (latest.map (·.camis)).Nodup) (ps : List (Order × Option String)) :
    (ps.flatMap (fun p => leftMergeRow latest p.1 p.2)).map
        (·.cost_of_the_order) =
      ps.map (fun p => p.1.cost_of_the_order) := by
  induction ps with
  | nil => rfl
  | cons p t ih =>
      obtain ⟨i, hi, -⟩ := leftMergeRow_shape latest p.1 p.2 h
      simp [List.flatMap_cons, hi, ih, mkEnriched]

theorem bind_rows_ids (latest : List Inspection)
    (h : (latest.map (·.camis)).Nodup) (ps : List (Order × Option String)) :
    (ps.flatMap (fun p => leftMergeRow latest p.1 p.2)).map (·.order_id) =
      ps.map (fun p => p.1.order_id) := by
  induction ps with
  | nil => rfl
  | cons p t ih =>
      obtain ⟨i, hi, -⟩ := leftMergeRow_shape latest p.1 p.2 h
      simp [List.flatMap_cons, hi, ih, mkEnriched]

theorem bind_rows_inv (latest : List Inspection)
    (h : (latest.map (·.camis)).Nodup) (ps : List (Order × Option String)) :
    ∀ r ∈ ps.flatMap (fun p => leftMergeRow latest p.1 p.2),
      r.camis = none → r.insp = none := by
  induction ps with
  | nil => intro r hr; simp at hr
  | cons p t ih =>
      obtain ⟨i, hi, hnone⟩ := leftMergeRow_shape latest p.1 p.2 h
      intro r hr
      rw [List.flatMap_cons, hi] at hr
      rcases List.mem_append.mp hr with h1 | h2
      · have : r = mkEnriched p.1 p.2 i := by simpa using h1
        subst this
        intro hc
        simp only [mkEnriched] at hc ⊢
        exact hnone hc
      · exact ih r h2

theorem merged_length (m : Mapping) (orders : List Order)
    (insp : List Inspection) :
    (match_orders_to_inspections m orders insp).rows.length = orders.length := by
  unfold match_orders_to_inspections
  by_cases ho : orders.isEmpty
  · simp [ho, List.isEmpty_iff.mp ho]
  · simp only [ho, Bool.false_eq_true, if_false]
    by_cases hi : insp.isEmpty
    · simp [hi]
    · simp only [hi, Bool.false_eq_true, if_false]
      rw [bind_rows_length _ (latest_camis_nodup insp), List.length_map]

theorem merged_costs (m : Mapping) (orders : List Order)
    (insp : List Inspection) :
    (match_orders_to_inspections m orders insp).rows.map (·.cost_of_the_order) =
      orders.map (·.cost_of_the_order) := by
  unfold match_orders_to_inspections
  by_cases ho : orders.isEmpty
  · simp [ho, List.isEmpty_iff.mp ho]
  · simp only [ho, Bool.false_eq_true, if_false]
    by_cases hi : insp.isEmpty
    · simp [hi, mkEnriched]
    · simp only [hi, Bool.false_eq_true, if_false]
      rw [bind_rows_costs _ (latest_camis_nodup insp), List.map_map]
      rfl

theorem merged_ids (m : Mapping) (orders : List Order)
    (insp : List Inspection) :
    (match_orders_to_inspections m orders insp).rows.map (·.order_id) =
      orders.map (·.order_id) := by
  unfold match_orders_to_inspections
  by_cases ho : orders.isEmpty
  · simp [ho, List.isEmpty_iff.mp ho]
  · simp only [ho, Bool.false_eq_true, if_false]
    by_cases hi : insp.isEmpty
    · simp [hi, mkEnriched]
    · simp only [hi, Bool.false_eq_true, if_false]
      rw [bind_rows_ids _ (latest_camis_nodup insp), List.map_map]
      rfl

theorem merged_inv (m : Mapping) (orders : List Order) (insp : List Inspection) :
    ∀ r ∈ (match_orders_to_inspections m orders insp).rows,
      r.camis = none → r.insp = none := by
  unfold match_orders_to_inspections
  by_cases ho : orders.isEmpty
  · simp [ho]
  · simp only [ho, Bool.false_eq_true, if_false]
    by_cases hi : insp.isEmpty
    · simp only [hi, if_true]
      intro r hr
      obtain ⟨p, -, hp⟩ := List.mem_map.mp hr
      subst hp
      intro hc
      simp [mkEnriched]
    · simp only [hi, Bool.false_eq_true, if_false]
      exact bind_rows_inv _ (latest_camis_nodup insp) _

/-! ## Lemmas for revenue conservation (C5) -/

theorem sumCosts_filter (p : EnrichedOrder → Bool) (l : List EnrichedOrder) :
    sumCosts (l.filter p) =
      (l.map (fun r => if p r then r.cost_of_the_order else 0)).sum := by
  induction l with
  | nil => rfl
  | cons a t ih =>
      rw [List.filter_cons]
      by_cases h : p a
      · simp only [h, if_true, List.map_cons, List.sum_cons, sumCosts] at ih ⊢
        rw [ih]
      · simp only [h, Bool.false_eq_true, if_false, List.map_cons,
          List.sum_cons, ih, zero_add]

theorem sum_map_add {α : Type} (f g : α → ℚ) (l : List α) :
    (l.map (fun x => f x + g x)).sum = (l.map f).sum + (l.map g).sum := by
  induction l with
  | nil => simp
  | cons a t ih => simp only [List.map_cons, List.sum_cons, ih]; ring

theorem sum_ite_zero (s : String) (c : ℚ) (t : List String) (h : s ∉ t) :
    (t.map (fun g => if s = g then c else 0)).sum = 0 := by
  induction t with
  | nil => rfl
  | cons a t ih =>
      simp only [List.mem_cons, not_or] at h
      simp [h.1, ih h.2]

theorem sum_ite_mem (l : List String) (hl : l.Nodup) (s : String) (c : ℚ) :
    (l.map (fun g => if s = g then c else 0)).sum = if s ∈ l then c else 0 := by
  induction l with
  | nil => simp
  | cons a t ih =>
      simp only [List.nodup_cons] at hl
      by_cases hs : s = a
      · subst hs
        simp [sum_ite_zero s c t hl.1]
      · simp [hs, ih hl.2]

theorem grades_ite_collapse (r : EnrichedOrder) (c : ℚ) :
    (GRADES.map (fun g => if rowGrade r = some g then c else 0)).sum =
      if isGraded r then c else 0 := by
  cases hg : rowGrade r with
  | none => simp [isGraded, hg, GRADES]
  | some s =>
      have h1 : GRADES.map (fun g => if some s = some g then c else 0) =
          GRADES.map (fun g => if s = g then c else 0) := by
        apply List.map_congr_left
        intro g _
        simp
      rw [h1, sum_ite_mem GRADES (by decide) s c]
      by_cases hm : s ∈ GRADES <;>
        simp [hm, isGraded, hg, List.elem_iff]

theorem bucketRev_cons (r : EnrichedOrder) (rs : List EnrichedOrder)
    (g : String) :
    bucketRev (r :: rs) g =
      (if rowGrade r = some g then r.cost_of_the_order else 0) +
        bucketRev rs g := by
  unfold bucketRev bucketRows
  rw [List.filter_cons]
  by_cases h : rowGrade r = some g
  · simp [h, sumCosts]
  · simp [h]

theorem gradeSum_eq (rows : List EnrichedOrder) :
    (GRADES.map (fun g => bucketRev rows g)).sum =
      (rows.map (fun r => if isGraded r then r.cost_of_the_order else 0)).sum := by
  induction rows with
  | nil => simp [bucketRev, bucketRows, sumCosts]
  | cons r rs ih =>
      have h1 : GRADES.map (fun g => bucketRev (r :: rs) g) =
          GRADES.map (fun g =>
            (if rowGrade r = some g then r.cost_of_the_order else 0) +
              bucketRev rs g) := by
        apply List.map_congr_left
        intro g _
        exact bucketRev_cons r rs g
      rw [h1, sum_map_add, grades_ite_collapse, ih]
      simp

theorem grade_conservation (rows : List EnrichedOrder)
    (hinv : ∀ r ∈ rows, r.camis = none → r.insp = none) :
    (GRADES.map (fun g => bucketRev rows g)).sum + unmatchedRev rows =
      sumCosts rows := by
  rw [gradeSum_eq]
  unfold unmatchedRev unmatchedRows matchedNoGradeRows
  rw [sumCosts_filter, sumCosts_filter, ← sum_map_add, ← sum_map_add]
  unfold sumCosts
  have hpt : ∀ r ∈ rows,
      ((if isGraded r then r.cost_of_the_order else 0) +
        ((if r.camis.isNone then r.cost_of_the_order else 0) +
          (if r.camis.isSome && !(isGraded r) then r.cost_of_the_order else 0)))
        = r.cost_of_the_order := by
    intro r hr
    cases hcam : r.camis with
    | none =>
        have hins := hinv r hr hcam
        simp [isGraded, rowGrade, hins, hcam]
    | some c =>
        by_cases hg : isGraded r <;> simp [hg, hcam]
  rw [List.map_congr_left hpt]

theorem round2_err (x : ℚ) : |round2 x - x| ≤ 1 / 200 := by
  unfold round2
  have h := abs_sub_round (100 * x)
  rw [abs_sub_comm] at h
  have h2 : (round (100 * x) : ℚ) / 100 - x =
      ((round (100 * x) : ℚ) - 100 * x) / 100 := by ring
  rw [h2, abs_div]
  have h100 : |(100 : ℚ)| = 100 := by norm_num
  rw [h100]
  rw [div_le_div_iff₀ (by norm_num) (by norm_num)]
  nlinarith [h]

/-! ## Lemmas for revenue at risk (C2) -/

theorem mem_atRiskIds {rows : List EnrichedOrder} {n : Nat} :
    n ∈ atRiskIds rows ↔ ∃ r ∈ rows, atRiskPred r ∧ r.order_id = n := by
  unfold atRiskIds
  rw [mem_dedupFirst]
  simp only [List.mem_append, List.mem_map, List.mem_filter, atRiskPred,
    Bool.or_eq_true]
  aesop

theorem rarUnionRows_eq (rows : List EnrichedOrder)
    (hN : (rows.map (·.order_id)).Nodup) :
    rarUnionRows rows = rows.filter atRiskPred := by
  unfold rarUnionRows
  apply List.filter_congr
  intro r hr
  by_cases ha : atRiskPred r
  · have hm : r.order_id ∈ atRiskIds rows := mem_atRiskIds.mpr ⟨r, hr, ha, rfl⟩
    simp [List.contains, List.elem_iff, hm, ha]
  · have hm : r.order_id ∉ atRiskIds rows := by
      intro hmem
      obtain ⟨r', hr', hp', hid'⟩ := mem_atRiskIds.mp hmem
      have heq : r' = r := List.inj_on_of_nodup_map hN hr' hr hid'
      exact ha (heq ▸ hp')
    simp [List.contains, List.elem_iff, hm, ha]

theorem rarUnionTotal_eq (rows : List EnrichedOrder)
    (hN : (rows.map (·.order_id)).Nodup) :
    rarUnionTotal rows = sumCosts (rows.filter atRiskPred) := by
  unfold rarUnionTotal
  rw [rarUnionRows_eq rows hN]

theorem catSum_eq (rows : List EnrichedOrder) :
    rarCatSum rows =
      (rows.map (fun r =>
        (if closedPred r then r.cost_of_the_order else 0) +
        (if gradeCPred r then r.cost_of_the_order else 0) +
        (if pendingPred r then r.cost_of_the_order else 0) +
        (if criticalPred r then r.cost_of_the_order else 0))).sum := by
  unfold rarCatSum
  rw [sumCosts_filter, sumCosts_filter, sumCosts_filter, sumCosts_filter,
    ← sum_map_add, ← sum_map_add, ← sum_map_add]

theorem perRow_le (r : EnrichedOrder) (hc : 0 ≤ r.cost_of_the_order) :
    (if atRiskPred r then r.cost_of_the_order else 0) ≤
      (if closedPred r then r.cost_of_the_order else 0) +
      (if gradeCPred r then r.cost_of_the_order else 0) +
      (if pendingPred r then r.cost_of_the_order else 0) +
      (if criticalPred r then r.cost_of_the_order else 0) := by
  by_cases h1 : closedPred r <;> by_cases h2 : gradeCPred r <;>
    by_cases h3 : pendingPred r <;> by_cases h4 : criticalPred r <;>
    simp [atRiskPred, h1, h2, h3, h4] <;> linarith

set_option linter.unnecessarySeqFocus false in
theorem perRow_eq_iff (r : EnrichedOrder) (hc : 0 ≤ r.cost_of_the_order) :
    ((if atRiskPred r then r.cost_of_the_order else 0) =
      (if closedPred r then r.cost_of_the_order else 0) +
      (if gradeCPred r then r.cost_of_the_order else 0) +
      (if pendingPred r then r.cost_of_the_order else 0) +
      (if criticalPred r then r.cost_of_the_order else 0)) ↔
    (2 ≤ numPreds r → r.cost_of_the_order = 0) := by
  by_cases h1 : closedPred r <;> by_cases h2 : gradeCPred r <;>
    by_cases h3 : pendingPred r <;> by_cases h4 : criticalPred r <;>
    simp [atRiskPred, numPreds, h1, h2, h3, h4] <;>
    (constructor <;> intro h <;> linarith)

theorem union_le_catSum (rows : List EnrichedOrder)
    (hN : (rows.map (·.order_id)).Nodup)
    (hC : ∀ r ∈ rows, 0 ≤ r.cost_of_the_order) :
    rarUnionTotal rows ≤ rarCatSum rows := by
  rw [rarUnionTotal_eq rows hN, sumCosts_filter, catSum_eq]
  apply List.sum_le_sum
  intro r hr
  exact perRow_le r (hC r hr)

theorem sum_map_eq_iff_pointwise {α : Type} (F G : α → ℚ) (l : List α)
    (hle : ∀ r ∈ l, F r ≤ G r) :
    (l.map F).sum = (l.map G).sum ↔ ∀ r ∈ l, F r = G r := by
  induction l with
  | nil => simp
  | cons a t ih =>
      have hha := hle a (List.mem_cons_self a t)
      have hlt : ∀ r ∈ t, F r ≤ G r := fun r hr => hle r (List.mem_cons_of_mem a hr)
      simp only [List.map_cons, List.sum_cons]
      constructor
      · intro h
        have hts : (t.map F).sum ≤ (t.map G).sum := List.sum_le_sum hlt
        have ha : F a = G a := by linarith
        have htsum : (t.map F).sum = (t.map G).sum := by linarith
        intro r hr
        rcases List.mem_cons.mp hr with rfl | hrt
        · exact ha
        · exact ((ih hlt).mp htsum) r hrt
      · intro h
        rw [h a (List.mem_cons_self a t),
          (ih hlt).mpr (fun r hr => h r (List.mem_cons_of_mem a hr))]

/-! ## Lemmas about name normalization (C6, C7) -/

theorem dropWhile_idem {α : Type} (p : α → Bool) (l : List α) :
    (l.dropWhile p).dropWhile p = l.dropWhile p := by
  induction l with
  | nil => rfl
  | cons a t ih =>
      by_cases h : p a
      · simp [List.dropWhile_cons, h, ih]
      · simp [List.dropWhile_cons, h]

theorem dropWhile_eq_self_of_append {α : Type} (p : α → Bool) (x y : List α)
    (h : (x ++ y).dropWhile p = x ++ y) : x.dropWhile p = x := by
  cases x with
  | nil => rfl
  | cons a t =>
      by_cases hp : p a
      · exfalso
        rw [List.cons_append, List.dropWhile_cons, if_pos hp] at h
        have hlen := (List.dropWhile_suffix (l := t ++ y) p).length_le
        rw [h] at hlen
        simp at hlen
      · simp [List.dropWhile_cons, hp]

theorem stripList_idem (p : Char → Bool) (l : List Char) :
    stripList p (stripList p l) = stripList p l := by
  unfold stripList
  have hu : (l.dropWhile p).dropWhile p = l.dropWhile p := dropWhile_idem p l
  set u := l.dropWhile p with hudef
  set w := u.reverse.dropWhile p with hwdef
  -- `stripList p l = w.reverse`; w is a suffix of u.reverse
  obtain ⟨z, hz⟩ : w <:+ u.reverse := List.dropWhile_suffix p
  have hsplit : u = w.reverse ++ z.reverse := by
    have := congrArg List.reverse hz
    simpa using this.symm
  have hw1 : w.reverse.dropWhile p = w.reverse := by
    apply dropWhile_eq_self_of_append p w.reverse z.reverse
    rw [← hsplit]
    exact hu
  rw [hw1]
  have hw2 : w.reverse.reverse.dropWhile p = w := by
    rw [List.reverse_reverse, hwdef]
    exact dropWhile_idem p u.reverse
  rw [hw2]

theorem pyStrip_idem (s : String) : pyStrip (pyStrip s) = pyStrip s := by
  unfold pyStrip
  exact congrArg String.mk (stripList_idem pyWs s.toList)

theorem strip_normalize (x : Option String) :
    pyStrip (normalize_restaurant_name x) = normalize_restaurant_name x := by
  cases x with
  | none =>
      show pyStrip "" = ""
      decide
  | some s =>
      unfold normalize_restaurant_name
      by_cases h : s = ""
      · simp only [h, if_true]
        show pyStrip "" = ""
        decide
      · simp only [h, if_false]
        exact pyStrip_idem _

theorem foldl_sub_fix (y : String) (L : List (List (List RAtom)))
    (h : ∀ r ∈ L, subAnchored r y = y) :
    L.foldl (fun acc r => subAnchored r acc) y = y := by
  induction L with
  | nil => rfl
  | cons r t ih =>
      rw [List.foldl_cons, h r (List.mem_cons_self r t)]
      exact ih (fun r' hr' => h r' (List.mem_cons_of_mem r hr'))

/-! ## Frame-effect lemmas (C10): no operation touches the input frames -/

theorem pres_trans {a b c : AnalyticsState}
    (h1 : b.orders = a.orders ∧ b.inspections = a.inspections)
    (h2 : c.orders = b.orders ∧ c.inspections = b.inspections) :
    c.orders = a.orders ∧ c.inspections = a.inspections :=
  ⟨h2.1.trans h1.1, h2.2.trans h1.2⟩

theorem mergedDf_pres (s : AnalyticsState) :
    (mergedDf s).2.orders = s.orders ∧
      (mergedDf s).2.inspections = s.inspections := by
  cases h : s.mergedCache <;> simp [mergedDf, h]

theorem rodentV_pres (s : AnalyticsState) :
    (rodentViolations s).2.orders = s.orders ∧
      (rodentViolations s).2.inspections = s.inspections := by
  cases h : s.rodentCache <;> simp [rodentViolations, h]

theorem rodentS_pres (s : AnalyticsState) :
    (get_rodent_ordersS s).2.orders = s.orders ∧
      (get_rodent_ordersS s).2.inspections = s.inspections := by
  simp only [get_rodent_ordersS]
  by_cases h : (rodentViolations s).1.isEmpty
  · simp only [h, if_true]
    exact rodentV_pres s
  · simp only [h, Bool.false_eq_true, if_false]
    exact pres_trans (rodentV_pres s) (mergedDf_pres _)

theorem gradeS_pres (s : AnalyticsState) :
    (get_revenue_by_gradeS s).2.orders = s.orders ∧
      (get_revenue_by_gradeS s).2.inspections = s.inspections :=
  mergedDf_pres s

theorem rarS_pres (s : AnalyticsState) :
    (get_revenue_at_riskS s).2.orders = s.orders ∧
      (get_revenue_at_riskS s).2.inspections = s.inspections :=
  mergedDf_pres s

theorem boroS_pres (s : AnalyticsState) :
    (get_borough_breakdownS s).2.orders = s.orders ∧
      (get_borough_breakdownS s).2.inspections = s.inspections :=
  mergedDf_pres s

theorem watchS_pres (n : Nat) (s : AnalyticsState) :
    (get_watchlistS n s).2.orders = s.orders ∧
      (get_watchlistS n s).2.inspections = s.inspections :=
  mergedDf_pres s

theorem summary_pres (s : AnalyticsState) :
    (get_summaryS s).2.orders = s.orders ∧
      (get_summaryS s).2.inspections = s.inspections := by
  simp only [get_summaryS]
  split
  · exact mergedDf_pres s
  · split
    · exact pres_trans (mergedDf_pres s) (rodentS_pres _)
    · split
      · exact pres_trans (pres_trans (mergedDf_pres s) (rodentS_pres _))
          (rarS_pres _)
      · split
        · exact pres_trans (pres_trans (pres_trans (mergedDf_pres s)
            (rodentS_pres _)) (rarS_pres _)) (gradeS_pres _)
        · split
          · exact pres_trans (pres_trans (pres_trans (pres_trans
              (mergedDf_pres s) (rodentS_pres _)) (rarS_pres _))
              (gradeS_pres _)) (boroS_pres _)
          · split
            · exact pres_trans (pres_trans (pres_trans (pres_trans (pres_trans
                (mergedDf_pres s) (rodentS_pres _)) (rarS_pres _))
                (gradeS_pres _)) (boroS_pres _)) (watchS_pres 10 _)
            · exact pres_trans (pres_trans (pres_trans (pres_trans (pres_trans
                (mergedDf_pres s) (rodentS_pres _)) (rarS_pres _))
                (gradeS_pres _)) (boroS_pres _)) (watchS_pres 10 _)

/-! ## Bound and shape lemma for C5 -/

theorem conservation_bound (rows : List EnrichedOrder) (T : ℚ)
    (hinv : ∀ r ∈ rows, r.camis = none → r.insp = none)
    (hT : sumCosts rows = T) :
    (GRADES.map (fun g => bucketRev rows g)).sum + unmatchedRev rows = T ∧
    |(GRADES.map (fun g => round2 (bucketRev rows g))).sum +
        round2 (unmatchedRev rows) - round2 T| ≤ 1 / 25 := by
  have hcons := grade_conservation rows hinv
  rw [hT] at hcons
  refine ⟨hcons, ?_⟩
  obtain ⟨a1, a2⟩ := abs_le.mp (round2_err (bucketRev rows "A"))
  obtain ⟨b1, b2⟩ := abs_le.mp (round2_err (bucketRev rows "B"))
  obtain ⟨c1, c2⟩ := abs_le.mp (round2_err (bucketRev rows "C"))
  obtain ⟨z1, z2⟩ := abs_le.mp (round2_err (bucketRev rows "Z"))
  obtain ⟨p1, p2⟩ := abs_le.mp (round2_err (bucketRev rows "P"))
  obtain ⟨n1, n2⟩ := abs_le.mp (round2_err (bucketRev rows "N"))
  obtain ⟨u1, u2⟩ := abs_le.mp (round2_err (unmatchedRev rows))
  obtain ⟨t1, t2⟩ := abs_le.mp (round2_err T)
  simp only [GRADES, List.map_cons, List.map_nil, List.sum_cons,
    List.sum_nil] at hcons ⊢
  rw [abs_le]
  constructor <;> linarith

/-! ## Claim theorems -/

attribute [local semireducible] Rat.add Rat.mul Rat.sub Rat.inv

/-- C1: the claim says that with a non-empty order collection and an empty
inspection collection every analytic operation succeeds and reports zero
risk.  In fact the merged frame then has no inspection columns, so
`get_revenue_by_grade`, `get_revenue_at_risk` and `get_watchlist` all raise
`KeyError` at their unguarded accesses to the `grade` column, while
`get_rodent_orders` and `get_borough_breakdown` do succeed.  Evaluated here
at five orders and an empty inspection collection. -/
theorem claim_C1_empty_inspections_bug :
    (get_revenue_by_gradeS state1).1.isOk = false ∧
    (get_revenue_at_riskS state1).1.isOk = false ∧
    (get_watchlistS 10 state1).1.isOk = false ∧
    (get_rodent_ordersS state1).1.isOk = true ∧
    (get_borough_breakdownS state1).1.isOk = true := by decide

/-- C2 counterexample: the claimed "equality iff no order satisfies more
than one predicate" fails at a single zero-cost order that has grade C and
a critical flag: the union total then equals the category sum even though
the order satisfies two predicates. -/
theorem claim_C2_counterexample :
    ¬((rarUnionTotal [rowC2] = rarCatSum [rowC2]) ↔
      ∀ r ∈ [rowC2], numPreds r ≤ 1) := by decide

/-- C2 (amended): over rows with distinct order ids and non-negative costs,
the de-duplicated union total counts each at-risk row's cost exactly once,
is at most the sum of the four per-category sub-totals, and equals that sum
iff every row satisfying two or more predicates has zero cost. -/
theorem claim_C2_rar_union (rows : List EnrichedOrder)
    (hN : (rows.map (·.order_id)).Nodup)
    (hC : ∀ r ∈ rows, 0 ≤ r.cost_of_the_order) :
    rarUnionTotal rows = sumCosts (rows.filter atRiskPred) ∧
    rarUnionTotal rows ≤ rarCatSum rows ∧
    (rarUnionTotal rows = rarCatSum rows ↔
      ∀ r ∈ rows, 2 ≤ numPreds r → r.cost_of_the_order = 0) := by
  refine ⟨rarUnionTotal_eq rows hN, union_le_catSum rows hN hC, ?_⟩
  rw [rarUnionTotal_eq rows hN, sumCosts_filter, catSum_eq]
  rw [sum_map_eq_iff_pointwise _ _ rows (fun r hr => perRow_le r (hC r hr))]
  constructor
  · intro h r hr
    exact (perRow_eq_iff r (hC r hr)).mp (h r hr)
  · intro h r hr
    exact (perRow_eq_iff r (hC r hr)).mpr (h r hr)

/-- Witness for C2: the amended statement instantiated at one concrete row. -/
theorem claim_C2_rar_union_witness :
    rarUnionTotal [rowC2w] = sumCosts ([rowC2w].filter atRiskPred) ∧
    rarUnionTotal [rowC2w] ≤ rarCatSum [rowC2w] ∧
    (rarUnionTotal [rowC2w] = rarCatSum [rowC2w] ↔
      ∀ r ∈ [rowC2w], 2 ≤ numPreds r → r.cost_of_the_order = 0) :=
  claim_C2_rar_union [rowC2w] (by decide) (by decide)

/-- C3: for every orders and every inspections collection (including empty
ones), the join has exactly one output row per input order — no order is
dropped or duplicated (the row-wise order ids coincide with the input order
ids), because the latest-inspection reduction leaves at most one row per
CAMIS before the merge. -/
theorem claim_C3_join_cardinality (m : Mapping) (orders : List Order)
    (insp : List Inspection) :
    (match_orders_to_inspections m orders insp).rows.length = orders.length ∧
    (match_orders_to_inspections m orders insp).rows.map (·.order_id) =
      orders.map (·.order_id) :=
  ⟨merged_length m orders insp, merged_ids m orders insp⟩

/-- C4: the claim says percentage fields are 0 when total revenue is 0.  In
fact numpy float division yields NaN (0/0) in both `get_revenue_by_grade`
and `get_borough_breakdown`; evaluated here at one matched, graded order of
cost 0. -/
theorem claim_C4_zero_revenue_bug :
    (match (get_revenue_by_gradeS state4).1 with
     | .ok r => r.grades.map (·.percentage)
     | .error _ => []) = [PFloat.nan] ∧
    (match (get_borough_breakdownS state4).1 with
     | .ok r => r.boroughs.map (·.percentage)
     | .error _ => []) = [PFloat.nan] := by decide

/-- C5: the sum of the six per-grade bucket revenues plus the unmatched
revenue (unresolved rows plus matched-but-ungraded rows) equals the total
order revenue — exactly before rounding, and within 1/25 (six bucket
roundings, one unmatched rounding and one total rounding, each off by at
most 1/200) on the rounded output figures. -/
theorem claim_C5_revenue_conservation (m : Mapping) (orders : List Order)
    (insp : List Inspection) :
    (GRADES.map (fun g =>
        bucketRev (match_orders_to_inspections m orders insp).rows g)).sum +
        unmatchedRev (match_orders_to_inspections m orders insp).rows =
      totalRevenue orders ∧
    |(GRADES.map (fun g =>
        round2 (bucketRev (match_orders_to_inspections m orders insp).rows g))).sum +
        round2 (unmatchedRev (match_orders_to_inspections m orders insp).rows) -
        round2 (totalRevenue orders)| ≤ 1 / 25 :=
  conservation_bound _ _ (merged_inv m orders insp)
    (by unfold sumCosts totalRevenue; rw [merged_costs])

/-- C6: `normalize_restaurant_name` is a total Lean function (no exception
path exists in the source: the null/non-string guard returns `""`), an
empty or null input yields the empty string, and a string input is trimmed
of surrounding whitespace and quotes, has each suffix rule applied exactly
once in the declared order (not to a fixed point — witness the residual
`"X - CLOSED"`), and is trimmed again, so the output never carries
surrounding whitespace. -/
theorem claim_C6_normalize_contract :
    normalize_restaurant_name none = "" ∧
    normalize_restaurant_name (some "") = "" ∧
    (∀ s : String, normalize_restaurant_name (some s) =
      if s = "" then ""
      else pyStrip (NAME_SUFFIXES.foldl (fun acc r => subAnchored r acc)
        (pyStrip (pyStripQuote (pyStrip s))))) ∧
    (∀ x : Option String,
      pyStrip (normalize_restaurant_name x) = normalize_restaurant_name x) ∧
    normalize_restaurant_name (some "  \"Joe's Pizza\"  ") = "Joe's Pizza" ∧
    normalize_restaurant_name (some "X - CLOSED - CLOSED") = "X - CLOSED" := by
  refine ⟨rfl, by decide, fun s => ?_, strip_normalize, by decide, by decide⟩
  by_cases h : s = "" <;> simp [normalize_restaurant_name, h]

/-- C7 counterexample: `normalize("\" \"A") = "\"A"` matches no suffix rule,
yet normalizing again strips the exposed quote: the function is not
idempotent on all rule-free outputs, because quote-trimming can expose
further quote characters. -/
theorem claim_C7_counterexample :
    (∀ r ∈ NAME_SUFFIXES,
      subAnchored r (normalize_restaurant_name (some "\" \"A")) =
        normalize_restaurant_name (some "\" \"A")) ∧
    normalize_restaurant_name
        (some (normalize_restaurant_name (some "\" \"A"))) ≠
      normalize_restaurant_name (some "\" \"A") := by
  constructor
  · decide
  · decide

/-- C7 (amended): normalization is idempotent on every output that matches
no suffix rule and carries no surrounding quote characters. -/
theorem claim_C7_idempotent (x : Option String)
    (h1 : ∀ r ∈ NAME_SUFFIXES,
      subAnchored r (normalize_restaurant_name x) =
        normalize_restaurant_name x)
    (h2 : pyStripQuote (normalize_restaurant_name x) =
      normalize_restaurant_name x) :
    normalize_restaurant_name (some (normalize_restaurant_name x)) =
      normalize_restaurant_name x := by
  have hgen : ∀ y : String, y ≠ "" →
      (∀ r ∈ NAME_SUFFIXES, subAnchored r y = y) → pyStripQuote y = y →
      pyStrip y = y → normalize_restaurant_name (some y) = y := by
    intro y hy h1' h2' hstrip'
    show (if y = "" then ""
      else pyStrip (NAME_SUFFIXES.foldl (fun acc r => subAnchored r acc)
        (pyStrip (pyStripQuote (pyStrip y))))) = y
    rw [if_neg hy, hstrip', h2', hstrip', foldl_sub_fix _ _ h1', hstrip']
  by_cases hy : normalize_restaurant_name x = ""
  · rw [hy]
    decide
  · exact hgen _ hy h1 h2 (strip_normalize x)

/-- Witness for C7: idempotence at a settled name. -/
theorem claim_C7_idempotent_witness :
    normalize_restaurant_name (some (normalize_restaurant_name (some "Joe"))) =
      normalize_restaurant_name (some "Joe") :=
  claim_C7_idempotent (some "Joe") (by decide) (by decide)

/-- C8 counterexample: the claim also covers an existing-but-unreadable
mapping file, but only a missing file degrades to the empty mapping; an
unreadable or invalid file raises out of `open`/`json.load`, so
construction fails. -/
theorem claim_C8_counterexample :
    (load_mapping MappingFile.unreadable).isOk = false := by decide

/-- C8 (amended): a missing mapping file degrades to the empty mapping
(construction succeeds), after which `get_camis` and `get_restaurant_info`
return null for every name; an unreadable file instead raises. -/
theorem claim_C8_missing_file :
    load_mapping MappingFile.missing = .ok emptyMapping ∧
    (∀ name : String, get_camis emptyMapping name = none) ∧
    (∀ name : String, get_restaurant_info emptyMapping name = none) :=
  ⟨rfl, fun _ => rfl, fun _ => rfl⟩

/-- C9: whenever `get_rodent_orders` succeeds, the returned `orders` list
has at most 100 entries (`head(100)`), while `order_count`,
`total_rodent_revenue` and `unique_restaurants` are computed over all
matching rows — so the list may omit orders included in the totals. -/
theorem claim_C9_rodent_truncation (rodent : List Inspection)
    (f : MergedFrame) (r : RodentResult)
    (h : get_rodent_orders_core rodent f = .ok r) :
    r.orders.length ≤ 100 ∧
    r.order_count = (rodentSel rodent f).length ∧
    r.total_rodent_revenue = round2 (sumCosts (rodentSel rodent f)) ∧
    r.unique_restaurants =
      (dedupFirst ((rodentSel rodent f).map (·.restaurant_name))).length := by
  have hzero : ∀ hsel : rodentSel rodent f = [], r = zeroRodent →
      r.orders.length ≤ 100 ∧
      r.order_count = (rodentSel rodent f).length ∧
      r.total_rodent_revenue = round2 (sumCosts (rodentSel rodent f)) ∧
      r.unique_restaurants =
        (dedupFirst ((rodentSel rodent f).map (·.restaurant_name))).length := by
    intro hsel hr
    subst hr
    simp [hsel, zeroRodent, sumCosts, dedupFirst, round2]
  unfold get_rodent_orders_core at h
  by_cases h0 : rodent.isEmpty
  · rw [if_pos h0] at h
    have hsel : rodentSel rodent f = [] := by
      have hr0 : rodent = [] := List.isEmpty_iff.mp h0
      subst hr0
      apply List.filter_eq_nil_iff.mpr
      intro a _
      cases a.camis <;> simp [rodentCamisOf, dedupFirst, List.contains]
    exact hzero hsel (by injection h with h'; exact h'.symm)
  · rw [if_neg h0] at h
    by_cases h1 : !f.hasOrderCols
    · rw [if_pos h1] at h
      cases h
    · rw [if_neg h1] at h
      simp only [] at h
      by_cases h2 : (rodentSel rodent f).isEmpty
      · rw [if_pos h2] at h
        exact hzero (List.isEmpty_iff.mp h2)
          (by injection h with h'; exact h'.symm)
      · rw [if_neg h2] at h
        injection h with h'
        subst h'
        refine ⟨?_, ?_, ?_, ?_⟩
        · simp only [List.length_map, List.length_take]
          exact min_le_left _ _
        · simp [List.length_map]
        · simp only [List.map_map, sumCosts]
          rfl
        · simp only [List.map_map]
          rfl

set_option maxRecDepth 100000 in
/-- Witness for C9: a successful run over 101 matching orders, where the
totals count all 101 rows but the returned list is truncated to 100. -/
theorem claim_C9_rodent_truncation_witness :
    r9.orders.length ≤ 100 ∧
    r9.order_count = (rodentSel [insp9] frame9).length ∧
    r9.total_rodent_revenue = round2 (sumCosts (rodentSel [insp9] frame9)) ∧
    r9.unique_restaurants =
      (dedupFirst ((rodentSel [insp9] frame9).map (·.restaurant_name))).length :=
  claim_C9_rodent_truncation [insp9] frame9 r9 (by decide)

/-- C10: every analytic operation (and the composite summary) leaves the
service's orders and inspections collections unchanged — the only state
mutated is the lazily-filled caches, and all derived frames are fresh
copies. -/
theorem claim_C10_frame_effect (s : AnalyticsState) :
    ((get_rodent_ordersS s).2.orders = s.orders ∧
      (get_rodent_ordersS s).2.inspections = s.inspections) ∧
    ((get_revenue_by_gradeS s).2.orders = s.orders ∧
      (get_revenue_by_gradeS s).2.inspections = s.inspections) ∧
    ((get_revenue_at_riskS s).2.orders = s.orders ∧
      (get_revenue_at_riskS s).2.inspections = s.inspections) ∧
    ((get_borough_breakdownS s).2.orders = s.orders ∧
      (get_borough_breakdownS s).2.inspections = s.inspections) ∧
    (∀ n : Nat, (get_watchlistS n s).2.orders = s.orders ∧
      (get_watchlistS n s).2.inspections = s.inspections) ∧
    ((get_summaryS s).2.orders = s.orders ∧
      (get_summaryS s).2.inspections = s.inspections) :=
  ⟨rodentS_pres s, gradeS_pres s, rarS_pres s, boroS_pres s,
    fun n => watchS_pres n s, summary_pres s⟩
